import Mathlib

/-!
Shallow embedding of `find_refs.py`: a tool that locates cross-document
spreadsheet references (`document#object.property`) inside a corpus of
packaged (zip) CAD documents.

Python exceptions are modelled by the `PyErr` sum type and fallible code
returns `Except PyErr α`.  The Python standard-library pieces are modelled
as follows:

* `xml.etree.ElementTree.Element` becomes the `Element` tree below;
  `find`/`findall` filter direct children by tag, `attrib[k]` lookup
  raises `KeyError` when the key is absent, iterating an element yields
  its children in order.
* `zipfile` becomes the `FileContent`/`FileSystem` model: opening a
  non-zip raises `BadZipFile`, reading an absent member raises `KeyError`.
* `ElementTree.fromstring` (the XML text parser) is passed in as an
  explicit oracle `fromstring : String → Except PyErr Element`.
* `re` is modelled for the pattern subset reachable from canonical
  reference strings: literal characters, `.` (any character), `(...)`
  grouping, `|` alternation and the `*`/`+`/`?` quantifiers; other
  metacharacters (`[`, `\`, `^`, `$`, `\x7b`) are rejected at compile
  time.  `re.compile` raising `re.error` becomes `Except.error (.reError _)`;
  `pattern.search` is the Boolean `reSearch` (the code only tests
  truthiness of the match object).
-/

namespace FindRefs

/-- Python exceptions raised by the code paths under study. -/
inductive PyErr where
  | keyError (key : String)
  | attributeError (msg : String)
  | typeError (msg : String)
  | fileNotFoundError (path : String)
  | badZipFile
  | xmlParseError
  | reError (msg : String)
  deriving DecidableEq, Repr

/-- Model of `xml.etree.ElementTree.Element`: a tag, an attribute
dictionary and the ordered list of child elements. -/
structure Element where
  tag : String
  attrib : List (String × String)
  children : List Element

/-- `element.findall(tag)`: all direct children with the given tag,
in document order. -/
def Element.findall (e : Element) (name : String) : List Element :=
  e.children.filter (fun c => c.tag == name)

/-- `element.find(tag)`: the first direct child with the given tag,
or `None`. -/
def Element.find (e : Element) (name : String) : Option Element :=
  e.children.find? (fun c => c.tag == name)

/-- `element.attrib[key]`: dictionary lookup, raising `KeyError` when the
attribute is absent. -/
def Element.attribGet (e : Element) (key : String) : Except PyErr String :=
  match e.attrib.find? (fun p => p.1 == key) with
  | some p => .ok p.2
  | none => .error (.keyError key)

/-- `class Reference`: a reference to the property of an object in another
document (construction is total: any three strings). -/
structure Reference where
  document : String
  object_name : String
  property_name : String
  deriving DecidableEq, Repr

/-- `Reference._to_string`: `'{}#{}.{}'.format(document, object_name,
property_name)` — also used verbatim as the search pattern. -/
def Reference.to_string (r : Reference) : String :=
  r.document ++ "#" ++ r.object_name ++ "." ++ r.property_name

/-- `class Match`: a located use of a reference. -/
structure Match where
  document : String
  object_name : String
  property_name : String
  location : String
  deriving DecidableEq, Repr

/-- `Match._to_string`: `'{} {}.{} ({})'.format(document, object_name,
location, property_name)`. -/
def Match.to_string (m : Match) : String :=
  m.document ++ " " ++ m.object_name ++ "." ++ m.location ++
    " (" ++ m.property_name ++ ")"

/-! ### Model of the `re` module (pattern subset of canonical reference
strings) -/

/-- Regular-expression abstract syntax for the modelled subset. -/
inductive Regex where
  | emp
  | eps
  | chr (c : Char)
  | dot
  | seq (a b : Regex)
  | alt (a b : Regex)
  | star (r : Regex)
  deriving Repr

/-- Apply a trailing `*`, `+` or `?` quantifier to a just-parsed atom. -/
def applyQuant (r : Regex) (cs : List Char) : Regex × List Char :=
  match cs with
  | '*' :: rest => (.star r, rest)
  | '+' :: rest => (.seq r (.star r), rest)
  | '?' :: rest => (.alt r .eps, rest)
  | _ => (r, cs)

mutual

/-- Parse an alternation (`a|b`). -/
def parseAlt : Nat → List Char → Except PyErr (Regex × List Char)
  | 0, _ => .error (.reError "pattern too deeply nested for model")
  | fuel + 1, cs => do
    let (r, rest) ← parseSeq fuel cs
    match rest with
    | '|' :: rest2 => do
      let (r2, rest3) ← parseAlt fuel rest2
      pure (.alt r r2, rest3)
    | _ => pure (r, rest)

/-- Parse a concatenation of quantified atoms, stopping at `)`, `|` or
end of pattern. -/
def parseSeq : Nat → List Char → Except PyErr (Regex × List Char)
  | 0, _ => .error (.reError "pattern too deeply nested for model")
  | fuel + 1, cs =>
    match cs with
    | [] => .ok (.eps, [])
    | ')' :: _ => .ok (.eps, cs)
    | '|' :: _ => .ok (.eps, cs)
    | _ => do
      let (r, rest) ← parseAtom fuel cs
      let (r2, rest2) ← parseSeq fuel rest
      pure (.seq r r2, rest2)

/-- Parse one atom (group, `.`, or a literal character) together with an
optional trailing quantifier. -/
def parseAtom : Nat → List Char → Except PyErr (Regex × List Char)
  | 0, _ => .error (.reError "pattern too deeply nested for model")
  | fuel + 1, cs =>
    match cs with
    | [] => .error (.reError "internal: empty atom")
    | '(' :: rest => do
      let (r, rest2) ← parseAlt fuel rest
      match rest2 with
      | ')' :: rest3 => pure (applyQuant r rest3)
      | _ => .error (.reError "missing ), unterminated subpattern")
    | '.' :: rest => pure (applyQuant .dot rest)
    | '*' :: _ => .error (.reError "nothing to repeat")
    | '+' :: _ => .error (.reError "nothing to repeat")
    | '?' :: _ => .error (.reError "nothing to repeat")
    | '[' :: _ => .error (.reError "unterminated character set")
    | '\\' :: _ => .error (.reError "escape outside modelled subset")
    | '^' :: _ => .error (.reError "anchor outside modelled subset")
    | '$' :: _ => .error (.reError "anchor outside modelled subset")
    | '\x7b' :: _ => .error (.reError "repeat outside modelled subset")
    | c :: rest => pure (applyQuant (.chr c) rest)

end

/-- `re.compile(pattern)`: parse the whole pattern; leftover input (a
stray `)`) is an unbalanced-parenthesis error. -/
def reCompile (pattern : String) : Except PyErr Regex :=
  match parseAlt (pattern.length * 3 + 3) pattern.toList with
  | .ok (r, []) => .ok r
  | .ok (_, _ :: _) => .error (.reError "unbalanced parenthesis")
  | .error e => .error e

/-- Does the regex accept the empty string? -/
def nullable : Regex → Bool
  | .emp => false
  | .eps => true
  | .chr _ => false
  | .dot => false
  | .seq a b => nullable a && nullable b
  | .alt a b => nullable a || nullable b
  | .star _ => true

/-- Brzozowski derivative with respect to one character. -/
def deriv : Regex → Char → Regex
  | .emp, _ => .emp
  | .eps, _ => .emp
  | .chr c, a => if a = c then .eps else .emp
  | .dot, _ => .eps
  | .seq r s, a =>
    if nullable r then .alt (.seq (deriv r a) s) (deriv s a)
    else .seq (deriv r a) s
  | .alt r s, a => .alt (deriv r a) (deriv s a)
  | .star r, a => .seq (deriv r a) (.star r)

/-- Does some prefix of `cs` match the regex? -/
def acceptsSomePrefix (r : Regex) : List Char → Bool
  | [] => nullable r
  | c :: cs => nullable r || acceptsSomePrefix (deriv r c) cs

/-- Does the regex match starting at some position? (the truthiness of
`pattern.search(s)`: an unanchored occurrence test). -/
def searchFrom (r : Regex) : List Char → Bool
  | [] => nullable r
  | c :: cs => acceptsSomePrefix r (c :: cs) || searchFrom r cs

/-- `pattern.search(content)` as a Boolean: the code only tests whether a
match object was returned. -/
def reSearch (r : Regex) (s : String) : Bool :=
  searchFrom r s.toList

/-- Compile-then-search against a pattern given as a string (`false` when
the pattern does not compile); used to state scanner theorems. -/
def reSearchStr (pattern s : String) : Bool :=
  match reCompile pattern with
  | .ok r => reSearch r s
  | .error _ => false

/-! ### Property Scanner (`make_find_references_in_property` and friends) -/

/-- The `for child_element in property.findall(child_element_name)` loop
body of `find_references_in_property`: look up the reference attribute
(`KeyError` if absent), compile the canonical reference string as a regex
(`re.error` possible, raised afresh on every iteration), search, and on a
match append the location attribute. -/
def findReferencesLoop (reference_attribute location_attribute : String)
    (reference : Reference) :
    List Element → List String → Except PyErr (List String)
  | [], locations => .ok locations
  | child_element :: rest, locations => do
    let content ← child_element.attribGet reference_attribute
    let pattern ← reCompile reference.to_string
    if reSearch pattern content then do
      let loc ← child_element.attribGet location_attribute
      findReferencesLoop reference_attribute location_attribute reference
        rest (locations ++ [loc])
    else
      findReferencesLoop reference_attribute location_attribute reference
        rest locations

/-- `make_find_references_in_property(...)(property)`: scan the direct
children named `child_element_name`, in document order, returning the
location attributes of those whose reference attribute the compiled
canonical string ms. -/
def make_find_references_in_property
    (child_element_name reference_attribute location_attribute : String)
    (reference : Reference) (property : Element) :
    Except PyErr (List String) :=
  findReferencesLoop reference_attribute location_attribute reference
    (property.findall child_element_name) []

/-- `make_find_references_in_cells(reference)`. -/
def make_find_references_in_cells (reference : Reference)
    (property : Element) : Except PyErr (List String) :=
  make_find_references_in_property "Cell" "content" "address"
    reference property

/-- `make_find_references_in_expression_engine(reference)`. -/
def make_find_references_in_expression_engine (reference : Reference)
    (property : Element) : Except PyErr (List String) :=
  make_find_references_in_property "Expression" "expression" "path"
    reference property

/-- `class Property`: a property element paired with the name of its
nested container and the scanning strategy for its kind. -/
structure PropertyObj where
  property_element : Element
  nested_element_name : String
  make_find_references : Reference → Element → Except PyErr (List String)

/-- `Property.find_locations`: find the nested container and run the
strategy on it; when the container is absent, `find` returns `None` and
the strategy's `findall` call on `None` raises `AttributeError`. -/
def PropertyObj.find_locations (p : PropertyObj) (reference : Reference) :
    Except PyErr (List String) :=
  match p.property_element.find p.nested_element_name with
  | some nested_element => p.make_find_references reference nested_element
  | none => .error (.attributeError "NoneType object has no attribute findall")

/-- `create_property(property_element)`: dispatch on the `name` attribute
(`cells` → `Cells` container, `ExpressionEngine` → `ExpressionEngine`
container, anything else → `None`).  The caller has already read the
`name` attribute, so the lookup here cannot fail. -/
def create_property (property_element : Element) : Option PropertyObj :=
  match property_element.attrib.find? (fun p => p.1 == "name") with
  | some ("name", "cells") =>
    some ⟨property_element, "Cells", make_find_references_in_cells⟩
  | some ("name", "ExpressionEngine") =>
    some ⟨property_element, "ExpressionEngine",
      make_find_references_in_expression_engine⟩
  | _ => none

/-- `make_find_locations(property_element)(reference)`: read the `name`
attribute (`KeyError` if absent); names other than `cells` and
`ExpressionEngine` short-circuit to the empty list; otherwise build the
`Property` object and delegate. -/
def make_find_locations (property_element : Element)
    (reference : Reference) : Except PyErr (List String) := do
  let property_name ← property_element.attribGet "name"
  if property_name = "cells" ∨ property_name = "ExpressionEngine" then
    match create_property property_element with
    | some property => property.find_locations reference
    | none => .error (.attributeError "NoneType object has no attribute find_locations")
  else
    .ok []

/-! ### Document Tree Walker (`find_references_in_root`) -/

/-- Inner loop of `find_references_in_root`: for each `Property` child of
the `Properties` container, read its `name` attribute, run the scanner,
and wrap each returned location into a `Match`. -/
def propertiesLoop (document : String) (reference : Reference)
    (object_name : String) :
    List Element → List Match → Except PyErr (List Match)
  | [], ms => .ok ms
  | property :: rest, ms => do
    let property_name ← property.attribGet "name"
    let locations ← make_find_locations property reference
    propertiesLoop document reference object_name rest
      (ms ++ locations.map fun location =>
        ⟨document, object_name, property_name, location⟩)

/-- Outer loop of `find_references_in_root`: for each child of
`ObjectData`, find its `Properties` container, read the object's `name`
attribute, then walk the `Property` children.  When `Properties` is
absent, `find` returns `None` and `None.findall` raises
`AttributeError`. -/
def objectDataLoop (document : String) (reference : Reference) :
    List Element → List Match → Except PyErr (List Match)
  | [], ms => .ok ms
  | object :: rest, ms => do
    let properties := object.find "Properties"
    let object_name ← object.attribGet "name"
    match properties with
    | none => .error (.attributeError "NoneType object has no attribute findall")
    | some props => do
      let matches2 ← propertiesLoop document reference object_name
        (props.findall "Property") ms
      objectDataLoop document reference rest matches2

/-- `find_references_in_root(document, root, reference)`: walk every
object under `ObjectData` and every property under each object,
accumulating ms.  When the root has no `ObjectData` child, iterating
`None` raises `TypeError`. -/
def find_references_in_root (document : String) (root : Element)
    (reference : Reference) : Except PyErr (List Match) :=
  match root.find "ObjectData" with
  | none => .error (.typeError "NoneType object is not iterable")
  | some object_data =>
    objectDataLoop document reference object_data.children []

/-! ### Archive Document Loader and Corpus Scan Orchestrator -/

/-- What the filesystem holds at a path: a file that is not a zip
archive, or a zip archive with named members (member name ↦ payload). -/
inductive FileContent where
  | notZip
  | zip (members : List (String × String))

/-- The working directory: file names with their contents, in the order
the filesystem lists them. -/
abbrev FileSystem := List (String × FileContent)

/-- `zipfile.ZipFile(document, 'r')`: `FileNotFoundError` when the path
does not exist, `BadZipFile` when the file is not a zip archive. -/
def zipOpen (fs : FileSystem) (path : String) :
    Except PyErr (List (String × String)) :=
  match fs.find? (fun p => p.1 == path) with
  | none => .error (.fileNotFoundError path)
  | some (_, .notZip) => .error .badZipFile
  | some (_, .zip members) => .ok members

/-- `archive.read(member)`: `KeyError` when the member is absent. -/
def zipRead (members : List (String × String)) (member : String) :
    Except PyErr String :=
  match members.find? (fun p => p.1 == member) with
  | some p => .ok p.2
  | none => .error (.keyError member)

/-- `parse_document_xml(document)`: open the archive, read the member
`Document.xml`, and parse it with the `fromstring` oracle. -/
def parse_document_xml (fromstring : String → Except PyErr Element)
    (fs : FileSystem) (document : String) : Except PyErr Element := do
  let members ← zipOpen fs document
  let document_xml ← zipRead members "Document.xml"
  fromstring document_xml

/-- `glob.glob('*.FCStd')`: the file names ending in `.FCStd`, in the
filesystem's listing order. -/
def glob_fcstd (fs : FileSystem) : List String :=
  (fs.map (fun p => p.1)).filter
    (fun name => ".FCStd".toList.isSuffixOf name.toList)

/-- Loop of `find_root_by_document`: parse each discovered document,
recording `(document, root)` pairs in insertion order (the Python dict
preserves it).  A parse failure propagates: nothing is caught here. -/
def findRootLoop (fromstring : String → Except PyErr Element)
    (fs : FileSystem) :
    List String → List (String × Element) →
      Except PyErr (List (String × Element))
  | [], acc => .ok acc
  | document :: rest, acc => do
    let root ← parse_document_xml fromstring fs document
    findRootLoop fromstring fs rest (acc ++ [(document, root)])

/-- `find_root_by_document()`: map each `*.FCStd` file of the working
directory to its parsed `Document.xml` root. -/
def find_root_by_document (fromstring : String → Except PyErr Element)
    (fs : FileSystem) : Except PyErr (List (String × Element)) :=
  findRootLoop fromstring fs (glob_fcstd fs) []

/-- Loop of `find_references`: run the Walker on each parsed document and
concatenate the per-document match lists.  A Walker failure propagates:
nothing is caught here either. -/
def findReferencesDocsLoop (reference : Reference) :
    List (String × Element) → List Match → Except PyErr (List Match)
  | [], ms => .ok ms
  | (document, root) :: rest, ms => do
    let matches_in_document ← find_references_in_root document root reference
    findReferencesDocsLoop reference rest (ms ++ matches_in_document)

/-- `find_references(reference)`: the Corpus Scan Orchestrator — discover
and parse every document, then scan each one. -/
def find_references (fromstring : String → Except PyErr Element)
    (fs : FileSystem) (reference : Reference) : Except PyErr (List Match) := do
  let root_by_document ← find_root_by_document fromstring fs
  findReferencesDocsLoop reference root_by_document []

/-! ### Reporting / CLI (`__main__`) -/

/-- The singular/plural noun of the banner:
`'refrence' if num_matches == 1 else 'references'` (the misspelling is
the source's). -/
def banner_word (num_matches : Nat) : String :=
  if num_matches = 1 then "refrence" else "references"

/-- The text printed by `__main__` after the ms are computed: a
banner plus the ms joined by newline with a two-space indent, or the
no-references line for an empty list. -/
def cli_output (ref : Reference) (ms : List Match) : String :=
  if ms.isEmpty then
    "No references to " ++ ref.to_string ++ " found."
  else
    Nat.repr ms.length ++ " " ++ banner_word ms.length ++
      " to " ++ ref.to_string ++ " found:" ++ "\n" ++
      "  " ++ String.intercalate "\n  " (ms.map Match.to_string)

/-! ### Input-tree constructors (fixtures used to state the theorems;
they build `Element` values of the shapes described by the XML examples
in the source's doc comments). -/

/-- `<Cell address="..." content="..." />` -/
def mkCell (content address : String) : Element :=
  ⟨"Cell", [("address", address), ("content", content)], []⟩

/-- `<Expression path="..." expression="..."/>` -/
def mkExpression (expression path : String) : Element :=
  ⟨"Expression", [("path", path), ("expression", expression)], []⟩

/-- `<Property name="cells"><Cells>…</Cells></Property>` holding the
given `(content, address)` leaves in order. -/
def mkCellsProperty (cells : List (String × String)) : Element :=
  ⟨"Property", [("name", "cells")],
    [⟨"Cells", [("Count", "n")], cells.map fun cp => mkCell cp.1 cp.2⟩]⟩

/-- `<Property name="ExpressionEngine"><ExpressionEngine>…</ExpressionEngine></Property>`
holding the given `(expression, path)` leaves in order. -/
def mkExpressionEngineProperty (exprs : List (String × String)) : Element :=
  ⟨"Property", [("name", "ExpressionEngine")],
    [⟨"ExpressionEngine", [("count", "n")],
      exprs.map fun ep => mkExpression ep.1 ep.2⟩]⟩

/-- `<Object name="..."><Properties>…</Properties></Object>` -/
def mkObject (name : String) (props : List Element) : Element :=
  ⟨"Object", [("name", name)], [⟨"Properties", [], props⟩]⟩

/-- A document root whose `ObjectData` section holds the given objects. -/
def mkRoot (objects : List Element) : Element :=
  ⟨"Document", [], [⟨"ObjectData", [], objects⟩]⟩

/-- The `name` attribute of a fixture element (empty when absent); used
to instantiate the Walker theorems on concrete documents. -/
def pnByNameAttr (p : Element) : String :=
  match p.attrib.find? (fun q => q.1 == "name") with
  | some q => q.2
  | none => ""

/-- The expected scanner output on the two fixture properties of the
Walker witness: the cell address for the `cells` property, the
expression path otherwise. -/
def locByKind (p : Element) : List String :=
  if pnByNameAttr p = "cells" then ["B1"] else ["Radius"]

/-- A healthy parsed document: one `Spreadsheet` object whose `cells`
property holds a cell referencing `Main#Spreadsheet.Value`. -/
def goodDocRoot : Element :=
  mkRoot [mkObject "Spreadsheet" [mkCellsProperty [("=Main#Spreadsheet.Value", "B1")]]]

/-- A concrete `ElementTree.fromstring` oracle: parses the payload
`"<doc/>"` to `goodDocRoot` and fails on anything else. -/
def xmlOracle : String → Except PyErr Element := fun s =>
  if s = "<doc/>" then .ok goodDocRoot else .error .xmlParseError

/-- A corpus whose first listed document is not a zip archive and whose
second is healthy and contains a match. -/
def fsWithBadArchive : FileSystem :=
  [("bad.FCStd", .notZip), ("good.FCStd", .zip [("Document.xml", "<doc/>")])]

/-- The same corpus without the broken document. -/
def fsGoodOnly : FileSystem := [("good.FCStd", .zip [("Document.xml", "<doc/>")])]

/-! ### Helper lemmas -/

/-- Reduction of `Except` bind on a success value. -/
theorem okBind {α β : Type} (a : α) (f : α → Except PyErr β) :
    (Except.ok a >>= f : Except PyErr β) = f a := rfl

/-- Reduction of `Except` bind on an error value. -/
theorem errBind {α β : Type} (e : PyErr) (f : α → Except PyErr β) :
    ((Except.error e : Except PyErr α) >>= f) = .error e := rfl

/-- The scanner loop over `Cell` leaves built from `(content, address)`
pairs appends exactly the addresses of the leaves whose content the
compiled pattern matches, in leaf order. -/
theorem findReferencesLoop_cells (r : Reference) (rx : Regex)
    (h : reCompile r.to_string = .ok rx) (cells : List (String × String))
    (acc : List String) :
    findReferencesLoop "content" "address" r
        (cells.map fun cp => mkCell cp.1 cp.2) acc
      = .ok (acc ++ (cells.filter fun cp => reSearch rx cp.1).map fun cp => cp.2) := by
  induction cells generalizing acc with
  | nil => simp [findReferencesLoop]
  | cons c rest ih =>
    have hca : (mkCell c.1 c.2).attribGet "content" = .ok c.1 := rfl
    have hcl : (mkCell c.1 c.2).attribGet "address" = .ok c.2 := rfl
    simp only [List.map_cons, findReferencesLoop, hca, hcl, h, okBind]
    cases hs : reSearch rx c.1 with
    | true =>
      simp only [hs, if_pos rfl, okBind, ih, List.filter_cons, List.map_cons]
      simp
    | false =>
      simp only [hs, Bool.false_eq_true, if_neg, ih, List.filter_cons]
      simp

/-- The scanner loop over `Expression` leaves built from
`(expression, path)` pairs appends exactly the paths of the leaves whose
expression the compiled pattern matches, in leaf order. -/
theorem findReferencesLoop_expressions (r : Reference) (rx : Regex)
    (h : reCompile r.to_string = .ok rx) (exprs : List (String × String))
    (acc : List String) :
    findReferencesLoop "expression" "path" r
        (exprs.map fun ep => mkExpression ep.1 ep.2) acc
      = .ok (acc ++ (exprs.filter fun ep => reSearch rx ep.1).map fun ep => ep.2) := by
  induction exprs generalizing acc with
  | nil => simp [findReferencesLoop]
  | cons c rest ih =>
    have hca : (mkExpression c.1 c.2).attribGet "expression" = .ok c.1 := rfl
    have hcl : (mkExpression c.1 c.2).attribGet "path" = .ok c.2 := rfl
    simp only [List.map_cons, findReferencesLoop, hca, hcl, h, okBind]
    cases hs : reSearch rx c.1 with
    | true =>
      simp only [hs, if_pos rfl, okBind, ih, List.filter_cons, List.map_cons]
      simp
    | false =>
      simp only [hs, Bool.false_eq_true, if_neg, ih, List.filter_cons]
      simp

/-- Scanning a `cells` property built from `(content, address)` pairs:
filter by pattern match on the content, return the addresses in order. -/
theorem make_find_locations_mkCells (r : Reference) (rx : Regex)
    (h : reCompile r.to_string = .ok rx) (cells : List (String × String)) :
    make_find_locations (mkCellsProperty cells) r
      = .ok ((cells.filter fun cp => reSearch rx cp.1).map fun cp => cp.2) := by
  show findReferencesLoop "content" "address" r
    ((cells.map fun cp => mkCell cp.1 cp.2).filter fun c => c.tag == "Cell") []
    = _
  rw [List.filter_map]
  have hp : ((fun c : Element => c.tag == "Cell") ∘
      fun cp : String × String => mkCell cp.1 cp.2) = fun _ => true := by
    funext cp
    rfl
  rw [hp, List.filter_true]
  exact findReferencesLoop_cells r rx h cells []

/-- Scanning an `ExpressionEngine` property built from
`(expression, path)` pairs: filter by pattern match on the expression,
return the paths in order. -/
theorem make_find_locations_mkExpressionEngine (r : Reference) (rx : Regex)
    (h : reCompile r.to_string = .ok rx) (exprs : List (String × String)) :
    make_find_locations (mkExpressionEngineProperty exprs) r
      = .ok ((exprs.filter fun ep => reSearch rx ep.1).map fun ep => ep.2) := by
  show findReferencesLoop "expression" "path" r
    ((exprs.map fun ep => mkExpression ep.1 ep.2).filter fun c => c.tag == "Expression") []
    = _
  rw [List.filter_map]
  have hp : ((fun c : Element => c.tag == "Expression") ∘
      fun ep : String × String => mkExpression ep.1 ep.2) = fun _ => true := by
    funext ep
    rfl
  rw [hp, List.filter_true]
  exact findReferencesLoop_expressions r rx h exprs []

/-! ### The claims -/

/-- C2: for a `Property` named `cells` (resp. `ExpressionEngine`), the
scanner reads the `Cell` (resp. `Expression`) leaves in document order
and emits the leaf's `address` (resp. `path`) exactly when the
Reference's canonical string occurs in the leaf's `content` (resp.
`expression`), occurrence being the source's unanchored pattern search
(§4.3 of the spec); emitted locations keep leaf order with no
deduplication.  In particular `content="=Main#Spreadsheet.Value"`,
`address="B1"` against Reference(Main, Spreadsheet, Value) yields
`["B1"]`, and `expression="Main#Spreadsheet.Value"`, `path="Radius"`
yields `["Radius"]`. -/
theorem claim_C2 (r : Reference) (h : (reCompile r.to_string).isOk = true)
    (cells exprs : List (String × String)) :
    (make_find_locations (mkCellsProperty cells) r
        = .ok ((cells.filter fun cp => reSearchStr r.to_string cp.1).map fun cp => cp.2))
    ∧ (make_find_locations (mkExpressionEngineProperty exprs) r
        = .ok ((exprs.filter fun ep => reSearchStr r.to_string ep.1).map fun ep => ep.2))
    ∧ make_find_locations (mkCellsProperty [("=Main#Spreadsheet.Value", "B1")])
        ⟨"Main", "Spreadsheet", "Value"⟩ = .ok ["B1"]
    ∧ make_find_locations (mkExpressionEngineProperty [("Main#Spreadsheet.Value", "Radius")])
        ⟨"Main", "Spreadsheet", "Value"⟩ = .ok ["Radius"] := by
  cases hc : reCompile r.to_string with
  | error e => rw [hc] at h; exact absurd h (by simp [Except.isOk, Except.toBool])
  | ok rx =>
    have hstr : ∀ s : String, reSearchStr r.to_string s = reSearch rx s := by
      intro s
      simp [reSearchStr, hc]
    refine ⟨?_, ?_, rfl, rfl⟩
    · rw [make_find_locations_mkCells r rx hc cells]
      congr 1
      congr 1
      congr 1
      funext cp
      rw [hstr]
    · rw [make_find_locations_mkExpressionEngine r rx hc exprs]
      congr 1
      congr 1
      congr 1
      funext ep
      rw [hstr]

/-- C2 witness: the canonical pattern of Reference(Main, Spreadsheet,
Value) compiles, and a `cells` property with two matching cells (same
address) and one inert cell yields both locations, in order, without
deduplication. -/
theorem claim_C2_witness :
    ((reCompile (Reference.mk "Main" "Spreadsheet" "Value").to_string).isOk = true)
    ∧ make_find_locations
        (mkCellsProperty [("=Main#Spreadsheet.Value", "B1"), ("plain text", "A2"),
          ("=2 * Main#Spreadsheet.Value", "B1")])
        ⟨"Main", "Spreadsheet", "Value"⟩ = .ok ["B1", "B1"] := by
  have h : (reCompile (Reference.mk "Main" "Spreadsheet" "Value").to_string).isOk = true := rfl
  exact ⟨h, ((claim_C2 ⟨"Main", "Spreadsheet", "Value"⟩ h
    [("=Main#Spreadsheet.Value", "B1"), ("plain text", "A2"),
      ("=2 * Main#Spreadsheet.Value", "B1")] []).1).trans (by rfl)⟩

/-- The inner Walker loop: for `Property` children with known scanner
results the produced matches are appended in property order, each
wrapping the document label, object name, property name and location. -/
theorem propertiesLoop_char (doc : String) (r : Reference) (oname : String)
    (PN : Element → String) (L : Element → List String) :
    ∀ (props : List Element) (acc : List Match),
      (∀ p ∈ props, p.attribGet "name" = .ok (PN p)
        ∧ make_find_locations p r = .ok (L p)) →
      propertiesLoop doc r oname props acc
        = .ok (acc ++ props.flatMap fun p =>
            (L p).map fun loc => ⟨doc, oname, PN p, loc⟩) := by
  intro props
  induction props with
  | nil => intro acc h; simp [propertiesLoop]
  | cons p rest ih =>
    intro acc h
    have hp := h p (List.mem_cons_self p rest)
    simp only [propertiesLoop, hp.1, hp.2, okBind]
    rw [ih _ fun q hq => h q (List.mem_cons_of_mem p hq)]
    simp [List.flatMap_cons, List.append_assoc]

/-- The outer Walker loop over objects built by `mkObject`: matches are
concatenated in object order. -/
theorem objectDataLoop_char (doc : String) (r : Reference)
    (PN : Element → String) (L : Element → List String) :
    ∀ (objs : List (String × List Element)) (acc : List Match),
      (∀ o ∈ objs, ∀ p ∈ o.2, p.tag = "Property" →
        p.attribGet "name" = .ok (PN p)
        ∧ make_find_locations p r = .ok (L p)) →
      objectDataLoop doc r (objs.map fun o => mkObject o.1 o.2) acc
        = .ok (acc ++ objs.flatMap fun o =>
            (o.2.filter fun p => p.tag == "Property").flatMap fun p =>
              (L p).map fun loc => ⟨doc, o.1, PN p, loc⟩) := by
  intro objs
  induction objs with
  | nil => intro acc h; simp [objectDataLoop]
  | cons o rest ih =>
    intro acc h
    have hfind : (mkObject o.1 o.2).find "Properties"
        = some ⟨"Properties", [], o.2⟩ := rfl
    have hname : (mkObject o.1 o.2).attribGet "name" = .ok o.1 := rfl
    simp only [List.map_cons, objectDataLoop, hfind, hname, okBind]
    have hprops : ∀ p ∈ (Element.mk "Properties" [] o.2).findall "Property",
        p.attribGet "name" = .ok (PN p) ∧ make_find_locations p r = .ok (L p) := by
      intro p hpm
      have hm := List.mem_filter.mp hpm
      exact h o (List.mem_cons_self o rest) p hm.1 (by simpa using hm.2)
    rw [propertiesLoop_char doc r o.1 PN L _ acc hprops]
    rw [okBind]
    rw [ih _ fun q hq => h q (List.mem_cons_of_mem o hq)]
    simp [List.flatMap_cons, List.append_assoc, Element.findall]

/-- C4: the Walker visits objects in document order and properties
within each object in document order, wraps every location the Scanner
returns into a `Match` carrying the document label, the object's `name`
attribute, the property's `name` attribute and the location, and all
matches of an earlier object precede all matches of a later object,
with the Scanner's emission order preserved within an object. -/
theorem claim_C4 (doc : String) (r : Reference)
    (objs : List (String × List Element))
    (PN : Element → String) (L : Element → List String)
    (h : ∀ o ∈ objs, ∀ p ∈ o.2, p.tag = "Property" →
      p.attribGet "name" = .ok (PN p)
      ∧ make_find_locations p r = .ok (L p)) :
    find_references_in_root doc (mkRoot (objs.map fun o => mkObject o.1 o.2)) r
      = .ok (objs.flatMap fun o =>
          (o.2.filter fun p => p.tag == "Property").flatMap fun p =>
            (L p).map fun loc => ⟨doc, o.1, PN p, loc⟩) := by
  show objectDataLoop doc r (objs.map fun o => mkObject o.1 o.2) [] = _
  rw [objectDataLoop_char doc r PN L objs [] h]
  simp

/-- C4 witness: a document with objects `O1` (a matching `cells`
property) and `O2` (a matching `ExpressionEngine` property), in that
order, yields `O1`'s match before `O2`'s. -/
theorem claim_C4_witness :
    (∀ o ∈ [("O1", [mkCellsProperty [("=Main#Spreadsheet.Value", "B1")]]),
            ("O2", [mkExpressionEngineProperty [("Main#Spreadsheet.Value", "Radius")]])],
      ∀ p ∈ o.2, p.tag = "Property" →
        p.attribGet "name" = .ok (pnByNameAttr p)
        ∧ make_find_locations p ⟨"Main", "Spreadsheet", "Value"⟩ = .ok (locByKind p))
    ∧ find_references_in_root "doc.FCStd"
        (mkRoot ([("O1", [mkCellsProperty [("=Main#Spreadsheet.Value", "B1")]]),
                  ("O2", [mkExpressionEngineProperty [("Main#Spreadsheet.Value", "Radius")]])].map
          fun o => mkObject o.1 o.2))
        ⟨"Main", "Spreadsheet", "Value"⟩
      = .ok [⟨"doc.FCStd", "O1", "cells", "B1"⟩,
             ⟨"doc.FCStd", "O2", "ExpressionEngine", "Radius"⟩] := by
  have h : ∀ o ∈ [("O1", [mkCellsProperty [("=Main#Spreadsheet.Value", "B1")]]),
            ("O2", [mkExpressionEngineProperty [("Main#Spreadsheet.Value", "Radius")]])],
      ∀ p ∈ o.2, p.tag = "Property" →
        p.attribGet "name" = .ok (pnByNameAttr p)
        ∧ make_find_locations p ⟨"Main", "Spreadsheet", "Value"⟩ = .ok (locByKind p) := by
    intro o ho p hp _
    simp only [List.mem_cons, List.not_mem_nil, or_false] at ho
    rcases ho with rfl | rfl
    all_goals simp only [List.mem_cons, List.not_mem_nil, or_false] at hp
    all_goals subst hp
    · exact ⟨rfl, rfl⟩
    · exact ⟨rfl, rfl⟩
  exact ⟨h, (claim_C4 "doc.FCStd" ⟨"Main", "Spreadsheet", "Value"⟩ _
    pnByNameAttr locByKind h).trans (by rfl)⟩

/-- C3: the match test is an unanchored occurrence test: content
`"Main#Sheet.Value2"` scanned against Reference(Main, Sheet, Value) —
whose canonical string is a proper prefix of the content's reference —
still emits the leaf's location (the substring/pattern false positive
on longer references extending the target). -/
theorem claim_C3 :
    make_find_locations (mkCellsProperty [("Main#Sheet.Value2", "A1")])
        ⟨"Main", "Sheet", "Value"⟩ = .ok ["A1"]
    ∧ (Reference.mk "Main" "Sheet" "Value").to_string ≠ "Main#Sheet.Value2"
    ∧ reSearchStr (Reference.mk "Main" "Sheet" "Value").to_string
        "Main#Sheet.Value2" = true :=
  ⟨rfl, by decide, rfl⟩

/-- C5: a `Property` whose `name` attribute is neither `cells` nor
`ExpressionEngine` yields the empty sequence, without an error,
regardless of its nested content. -/
theorem claim_C5 (p : Element) (r : Reference) (n : String)
    (h1 : p.attribGet "name" = .ok n) (h2 : n ≠ "cells")
    (h3 : n ≠ "ExpressionEngine") :
    make_find_locations p r = .ok [] := by
  show (p.attribGet "name" >>= fun property_name => _ : Except PyErr (List String)) = _
  rw [h1, okBind]
  rw [if_neg]
  rintro (hc | hc)
  · exact h2 hc
  · exact h3 hc

/-- C5 witness: a `Shape` property whose nested content even holds a
matching `Cell` still yields the empty sequence. -/
theorem claim_C5_witness :
    (Element.mk "Property" [("name", "Shape")]
        [⟨"Cells", [], [mkCell "Main#Spreadsheet.Value" "B1"]⟩]).attribGet "name"
      = .ok "Shape"
    ∧ "Shape" ≠ "cells"
    ∧ "Shape" ≠ "ExpressionEngine"
    ∧ make_find_locations
        (Element.mk "Property" [("name", "Shape")]
          [⟨"Cells", [], [mkCell "Main#Spreadsheet.Value" "B1"]⟩])
        ⟨"Main", "Spreadsheet", "Value"⟩ = .ok [] :=
  ⟨rfl, by decide, by decide,
    claim_C5 _ ⟨"Main", "Spreadsheet", "Value"⟩ "Shape" rfl (by decide) (by decide)⟩

/-- C9: the canonical string is compiled as a regular expression, so the
`.` separating object name from property name matches any character:
content `"Main#SheetXValue"` does not contain the canonical string
`"Main#Sheet.Value"` literally, yet the scanner emits the leaf's
location. -/
theorem claim_C9 :
    (Reference.mk "Main" "Sheet" "Value").to_string = "Main#Sheet.Value"
    ∧ ¬ ("Main#Sheet.Value".toList <:+: "Main#SheetXValue".toList)
    ∧ make_find_locations (mkCellsProperty [("Main#SheetXValue", "C3")])
        ⟨"Main", "Sheet", "Value"⟩ = .ok ["C3"] :=
  ⟨rfl, by decide, rfl⟩

/-- C10: a Reference whose object name contains an unbalanced `(` builds
(construction and stringification are total) but its canonical string
does not compile as a pattern, so scanning a reference-bearing property
with at least one leaf raises the pattern-compilation error instead of
returning a sequence of locations. -/
theorem claim_C10 :
    (Reference.mk "Main" "Sheet(" "Value").to_string = "Main#Sheet(.Value"
    ∧ make_find_locations (mkCellsProperty [("=Other#Sheet.Thing", "A1")])
        ⟨"Main", "Sheet(", "Value"⟩
      = .error (.reError "missing ), unterminated subpattern") :=
  ⟨rfl, rfl⟩

/-- C7 (evaluating the code at the failing input): with exactly one
match the banner noun printed is the misspelt `"refrence"`, not
`"reference"` as the claim states; the other parts of the claim (the
plural banner, the per-match rendering, the empty-sequence line) are as
claimed, except that each match line is indented by two spaces. -/
theorem claim_C7 :
    cli_output ⟨"Main", "Spreadsheet", "Value"⟩
        [⟨"doc.FCStd", "Spreadsheet", "cells", "B1"⟩]
      = "1 refrence to Main#Spreadsheet.Value found:\n  doc.FCStd Spreadsheet.B1 (cells)"
    ∧ banner_word 1 = "refrence"
    ∧ banner_word 1 ≠ "reference"
    ∧ banner_word 2 = "references"
    ∧ (Match.mk "doc.FCStd" "Spreadsheet" "cells" "B1").to_string
      = "doc.FCStd Spreadsheet.B1 (cells)"
    ∧ cli_output ⟨"Main", "Spreadsheet", "Value"⟩ []
      = "No references to Main#Spreadsheet.Value found." :=
  ⟨rfl, rfl, by decide, rfl, rfl, rfl⟩

/-- The Walker loop errors whenever some object in the list has no
`Properties` child (whatever happens on the objects before it). -/
theorem objectDataLoop_missing_props (doc : String) (r : Reference) :
    ∀ (objects : List Element) (acc : List Match),
      (∃ o ∈ objects, o.find "Properties" = none) →
      ∃ e, objectDataLoop doc r objects acc = .error e := by
  intro objects
  induction objects with
  | nil => rintro acc ⟨o, ho, _⟩; exact absurd ho (List.not_mem_nil o)
  | cons obj rest ih =>
    rintro acc ⟨o, ho, hnone⟩
    rcases List.mem_cons.mp ho with rfl | hmem
    · cases hn : o.attribGet "name" with
      | error e =>
        refine ⟨e, ?_⟩
        simp only [objectDataLoop, hn, errBind]
      | ok n =>
        refine ⟨.attributeError "NoneType object has no attribute findall", ?_⟩
        simp only [objectDataLoop, hn, okBind, hnone]
    · cases hn : obj.attribGet "name" with
      | error e =>
        refine ⟨e, ?_⟩
        simp only [objectDataLoop, hn, errBind]
      | ok n =>
        cases hf : obj.find "Properties" with
        | none =>
          refine ⟨.attributeError "NoneType object has no attribute findall", ?_⟩
          simp only [objectDataLoop, hn, okBind, hf]
        | some props =>
          cases hpl : propertiesLoop doc r n (props.findall "Property") acc with
          | error e =>
            refine ⟨e, ?_⟩
            simp only [objectDataLoop, hn, okBind, hf, hpl, errBind]
          | ok ms2 =>
            obtain ⟨e, he⟩ := ih ms2 ⟨o, hmem, hnone⟩
            refine ⟨e, ?_⟩
            simp only [objectDataLoop, hn, okBind, hf, hpl, okBind, he]

/-- C8: when some object of a parsed document lacks a `Properties`
section the Walker raises (an `AttributeError`, playing the role of the
spec's `MissingPropertiesError`): the result is an error, never a
silently produced match list for that document. -/
theorem claim_C8 (document : String) (r : Reference) (root : Element)
    (od o : Element) (hod : root.find "ObjectData" = some od)
    (ho : o ∈ od.children) (hp : o.find "Properties" = none) :
    ∃ e, find_references_in_root document root r = .error e := by
  have := objectDataLoop_missing_props document r od.children [] ⟨o, ho, hp⟩
  simpa [find_references_in_root, hod] using this

/-- C8 witness: a document with one object that has no `Properties`
child makes the Walker fail. -/
theorem claim_C8_witness :
    (mkRoot [⟨"Object", [("name", "Box")], []⟩]).find "ObjectData"
      = some ⟨"ObjectData", [], [⟨"Object", [("name", "Box")], []⟩]⟩
    ∧ (⟨"Object", [("name", "Box")], []⟩ : Element)
        ∈ (Element.mk "ObjectData" [] [⟨"Object", [("name", "Box")], []⟩]).children
    ∧ (Element.mk "Object" [("name", "Box")] []).find "Properties" = none
    ∧ ∃ e, find_references_in_root "doc.FCStd"
        (mkRoot [⟨"Object", [("name", "Box")], []⟩])
        ⟨"Main", "Spreadsheet", "Value"⟩ = .error e :=
  ⟨rfl, List.Mem.head _, rfl,
    claim_C8 "doc.FCStd" ⟨"Main", "Spreadsheet", "Value"⟩ _ _ _ rfl
      (List.Mem.head _) rfl⟩

/-- The Orchestrator's load loop errors whenever any discovered document
fails to parse: nothing is caught. -/
theorem findRootLoop_err (fromstring : String → Except PyErr Element)
    (fs : FileSystem) :
    ∀ (docs : List String) (acc : List (String × Element)) (d : String),
      d ∈ docs → (∃ e, parse_document_xml fromstring fs d = .error e) →
      ∃ e2, findRootLoop fromstring fs docs acc = .error e2 := by
  intro docs
  induction docs with
  | nil => rintro acc d hd _; exact absurd hd (List.not_mem_nil d)
  | cons doc rest ih =>
    rintro acc d hd ⟨e, he⟩
    cases hp : parse_document_xml fromstring fs doc with
    | error e2 =>
      refine ⟨e2, ?_⟩
      simp only [findRootLoop, hp, errBind]
    | ok root =>
      rcases List.mem_cons.mp hd with rfl | hmem
      · rw [hp] at he; exact absurd he (by simp)
      · obtain ⟨e2, he2⟩ := ih (acc ++ [(doc, root)]) d hmem ⟨e, he⟩
        refine ⟨e2, ?_⟩
        simp only [findRootLoop, hp, okBind, he2]

/-- C1 as amended: a failure to load or parse one discovered document is
NOT caught at the Orchestrator boundary — the exception propagates out
of `find_references` and the whole scan aborts with an error, returning
no matches at all. -/
theorem claim_C1 (fromstring : String → Except PyErr Element)
    (fs : FileSystem) (r : Reference) (d : String)
    (hd : d ∈ glob_fcstd fs)
    (he : ∃ e, parse_document_xml fromstring fs d = .error e) :
    ∃ e2, find_references fromstring fs r = .error e2 := by
  obtain ⟨e2, he2⟩ := findRootLoop_err fromstring fs (glob_fcstd fs) [] d hd he
  refine ⟨e2, ?_⟩
  show (find_root_by_document fromstring fs >>= fun root_by_document => _ :
    Except PyErr (List Match)) = _
  rw [show find_root_by_document fromstring fs = .error e2 from he2, errBind]

/-- C1 counterexample: with a corpus listing a broken archive first and
a healthy matching document second, the scan does not skip the broken
document and continue — it aborts with `BadZipFile` and even the healthy
document's match (which the same scan finds once the broken file is
removed) is not returned. -/
theorem claim_C1_cex :
    find_references xmlOracle fsWithBadArchive ⟨"Main", "Spreadsheet", "Value"⟩
      = .error .badZipFile
    ∧ find_references xmlOracle fsGoodOnly ⟨"Main", "Spreadsheet", "Value"⟩
      = .ok [⟨"good.FCStd", "Spreadsheet", "cells", "B1"⟩] :=
  ⟨rfl, rfl⟩

/-- C1 witness (for the amended theorem): the broken archive is
discovered by the glob, fails to parse, and the whole scan errors. -/
theorem claim_C1_witness :
    "bad.FCStd" ∈ glob_fcstd fsWithBadArchive
    ∧ (∃ e, parse_document_xml xmlOracle fsWithBadArchive "bad.FCStd" = .error e)
    ∧ ∃ e2, find_references xmlOracle fsWithBadArchive
        ⟨"Main", "Spreadsheet", "Value"⟩ = .error e2 :=
  ⟨by decide, ⟨.badZipFile, rfl⟩,
    claim_C1 xmlOracle fsWithBadArchive ⟨"Main", "Spreadsheet", "Value"⟩
      "bad.FCStd" (by decide) ⟨.badZipFile, rfl⟩⟩

/-- C6: the Loader fails with `BadZipFile` (the spec's `ArchiveError`)
when the path is not a valid archive, with `KeyError` /
`xmlParseError` (the spec's `MalformedDocumentError`) when the member
`Document.xml` is missing or is not well-formed markup, and on success
returns the parsed tree of that member. -/
theorem claim_C6 (fromstring : String → Except PyErr Element)
    (fs : FileSystem) (path q : String)
    (members : List (String × String)) (m s : String) (t : Element) :
    ((fs.find? fun p => p.1 == path) = some (q, .notZip) →
      parse_document_xml fromstring fs path = .error .badZipFile)
    ∧ ((fs.find? fun p => p.1 == path) = some (q, .zip members) →
      (members.find? fun p => p.1 == "Document.xml") = none →
      parse_document_xml fromstring fs path = .error (.keyError "Document.xml"))
    ∧ ((fs.find? fun p => p.1 == path) = some (q, .zip members) →
      (members.find? fun p => p.1 == "Document.xml") = some (m, s) →
      parse_document_xml fromstring fs path = fromstring s)
    ∧ ((fs.find? fun p => p.1 == path) = some (q, .zip members) →
      (members.find? fun p => p.1 == "Document.xml") = some (m, s) →
      fromstring s = .error .xmlParseError →
      parse_document_xml fromstring fs path = .error .xmlParseError)
    ∧ ((fs.find? fun p => p.1 == path) = some (q, .zip members) →
      (members.find? fun p => p.1 == "Document.xml") = some (m, s) →
      fromstring s = .ok t →
      parse_document_xml fromstring fs path = .ok t) := by
  refine ⟨?_, ?_, ?_, ?_, ?_⟩
  · intro h
    simp only [parse_document_xml, zipOpen, h, errBind]
  · intro h hm
    simp only [parse_document_xml, zipOpen, h, okBind, zipRead, hm, errBind]
  · intro h hm
    simp only [parse_document_xml, zipOpen, h, okBind, zipRead, hm]
  · intro h hm hx
    simp only [parse_document_xml, zipOpen, h, okBind, zipRead, hm, hx]
  · intro h hm hx
    simp only [parse_document_xml, zipOpen, h, okBind, zipRead, hm, hx]

/-- C6 witness: opening the non-archive file raises `BadZipFile`. -/
theorem claim_C6_witness :
    ((fsWithBadArchive.find? fun p => p.1 == "bad.FCStd")
      = some ("bad.FCStd", FileContent.notZip))
    ∧ parse_document_xml xmlOracle fsWithBadArchive "bad.FCStd"
      = .error .badZipFile :=
  ⟨rfl, (claim_C6 xmlOracle fsWithBadArchive "bad.FCStd" "bad.FCStd" [] "" ""
    ⟨"x", [], []⟩).1 rfl⟩

end FindRefs
